import Mathlib

/-!
A shallow embedding of `destructure.py`: recursive schema verification for
nested sequences and mappings, with name-binding placeholders.

Modelling conventions:

* Python values and schemas live in one universe `Val` (in Python a schema is
  just a value that may contain `Unbound` placeholders, `Ellipsis`, and type
  objects).  The modelled universe covers ints, bools, floats (as exact
  rationals), text, byte strings, lists, dicts (as association lists in
  insertion order, like Python dicts), and plain attribute-carrying objects.
* Python's `==` is modelled by `pyEq` (numeric values compare across
  `int`/`bool`/`float`; containers compare structurally; objects compare by
  class and attributes, as user classes with a structural `__eq__` do).
* `isinstance` is modelled by `pyIsInstance`; `bool` is a subclass of `int`,
  and the user class `"Child"` is declared as a subclass of `"Parent"`
  (a minimal class table sufficient for the claims about subclassing).
* A `Binding` object (`SimpleNamespace` in the source) is identified by a
  natural number; the mutable attribute dictionaries of all `Binding`
  objects form a `Store` mapping (object id, attribute name) to an optional
  stored value.  `getattr` on a missing name synthesizes an `Unbound`
  placeholder, exactly as `Binding.__getattr__` does.
* Threading `Lock`s are not modelled (the embedding is single-threaded);
  everything else of `Match`, `match`, `Switch.case` and
  `Binding.__setattr__` is translated line by line.
-/

namespace Destructure

/-- Python types that can appear as type references in a schema
(`match_type` / `isinstance`).  `user c` is a user-defined class named `c`. -/
inductive PyType where
  | int | float | bool | str | bytes | list | dict
  | user (c : String)
deriving DecidableEq

/-- Dictionary keys used in the modelled universe: strings, or the `Ellipsis`
key that marks a "rest" entry in a mapping schema. -/
inductive Key where
  | str (s : String)
  | ell
deriving DecidableEq

/-- The modelled Python value universe.  A schema is a `Val` that may contain
`unbound` placeholders (an `Unbound` instance carries its owning `Binding`
object id and its name), the `ellipsis` wildcard, and `vtype` type objects. -/
inductive Val where
  | vint (n : Int)
  | vbool (b : Bool)
  | vfloat (q : Rat)
  | vstr (s : String)
  | vbytes (bs : List Nat)
  | vtype (t : PyType)
  | ellipsis
  | unbound (ns : Nat) (name : String)
  | vlist (xs : List Val)
  | vdict (entries : List (Key × Val))
  | vobj (cls : String) (attrs : List (String × Val))

/-- `isinstance(v, Unbound)` as used by the dispatch in `Match.match`. -/
def isUnboundVal : Val → Bool
  | .unbound _ _ => true
  | _ => false

/-- Is this value the `Ellipsis` object?  (Used for `... in schema`,
`schema[-1] is ...`, etc.; only `Ellipsis` compares equal to `Ellipsis`.) -/
def isEll : Val → Bool
  | .ellipsis => true
  | _ => false

/-- First-match association lookup for dict entries (Python `data[k]`). -/
def lookupKV (k : Key) : List (Key × Val) → Option Val
  | [] => none
  | (k', v) :: rest => if k' = k then some v else lookupKV k rest

/-- First-match association lookup for object attributes (Python `getattr`). -/
def lookupStr (nm : String) : List (String × Val) → Option Val
  | [] => none
  | (k, v) :: rest => if k = nm then some v else lookupStr nm rest

/-- The numeric value of an `int`/`bool`/`float`, if the value is numeric.
Python compares numbers across these types by numeric value
(`True == 1`, `1 == 1.0`). -/
def numVal? : Val → Option Rat
  | .vint n => some (n : Rat)
  | .vbool b => some (if b then 1 else 0)
  | .vfloat q => some q
  | _ => none

theorem sizeOf_lookupKV {k : Key} {es : List (Key × Val)} {v : Val}
    (h : lookupKV k es = some v) : sizeOf v < sizeOf es := by
  induction es with
  | nil => simp [lookupKV] at h
  | cons p rest ih =>
    obtain ⟨k', w⟩ := p
    by_cases hk : k' = k
    · simp [lookupKV, hk] at h
      subst h
      simp
      omega
    · simp [lookupKV, hk] at h
      have := ih h
      simp
      omega

theorem sizeOf_lookupStr {nm : String} {es : List (String × Val)} {v : Val}
    (h : lookupStr nm es = some v) : sizeOf v < sizeOf es := by
  induction es with
  | nil => simp [lookupStr] at h
  | cons p rest ih =>
    obtain ⟨k, w⟩ := p
    by_cases hk : k = nm
    · simp [lookupStr, hk] at h
      subst h
      simp
      omega
    · simp [lookupStr, hk] at h
      have := ih h
      simp
      omega

mutual

/-- Python `==` on the modelled universe (`Match.match_equal`'s comparison). -/
def pyEq (a b : Val) : Bool :=
  match numVal? a, numVal? b with
  | some x, some y => decide (x = y)
  | some _, none => false
  | none, some _ => false
  | none, none =>
    match a, b with
    | .vstr s, .vstr t => decide (s = t)
    | .vbytes s, .vbytes t => decide (s = t)
    | .vtype t, .vtype u => decide (t = u)
    | .ellipsis, .ellipsis => true
    | .unbound n s, .unbound m t => decide (n = m) && decide (s = t)
    | .vlist xs, .vlist ys => pyEqList xs ys
    | .vdict xs, .vdict ys => decide (xs.length = ys.length) && pyEqDictSub xs ys
    | .vobj c as', .vobj c' bs' =>
        decide (c = c') && decide (as'.length = bs'.length) && pyEqAttrsSub as' bs'
    | _, _ => false
termination_by sizeOf a + sizeOf b
decreasing_by
  all_goals try have hk := sizeOf_lookupKV h
  all_goals try have hs := sizeOf_lookupStr h
  all_goals try simp
  all_goals omega

/-- Pointwise Python `==` on lists. -/
def pyEqList (xs ys : List Val) : Bool :=
  match xs, ys with
  | [], [] => true
  | x :: xs', y :: ys' => pyEq x y && pyEqList xs' ys'
  | _, _ => false
termination_by sizeOf xs + sizeOf ys
decreasing_by
  all_goals try have hk := sizeOf_lookupKV h
  all_goals try have hs := sizeOf_lookupStr h
  all_goals try simp
  all_goals omega

/-- One direction of Python dict `==`: every entry of `xs` is matched by an
equal value in `ys` under key lookup. -/
def pyEqDictSub (xs ys : List (Key × Val)) : Bool :=
  match xs with
  | [] => true
  | (k, v) :: rest =>
    (match h : lookupKV k ys with
     | some w => pyEq v w
     | none => false) && pyEqDictSub rest ys
termination_by sizeOf xs + sizeOf ys
decreasing_by
  all_goals try have hk := sizeOf_lookupKV h
  all_goals try have hs := sizeOf_lookupStr h
  all_goals try simp
  all_goals omega

/-- One direction of attribute-wise object `==`. -/
def pyEqAttrsSub (xs ys : List (String × Val)) : Bool :=
  match xs with
  | [] => true
  | (k, v) :: rest =>
    (match h : lookupStr k ys with
     | some w => pyEq v w
     | none => false) && pyEqAttrsSub rest ys
termination_by sizeOf xs + sizeOf ys
decreasing_by
  all_goals try have hk := sizeOf_lookupKV h
  all_goals try have hs := sizeOf_lookupStr h
  all_goals try simp
  all_goals omega

end

/-- The class table: ancestors of a user class, itself included.  The class
`"Child"` extends `"Parent"`; every other class is a direct subclass of
`object` only. -/
def classAncestors (c : String) : List String :=
  if c = "Child" then ["Child", "Parent"] else [c]

/-- Python `isinstance` on the modelled universe.  `bool` is a subclass of
`int`; a `vobj` is an instance of every ancestor of its class. -/
def pyIsInstance (v : Val) (t : PyType) : Bool :=
  match v, t with
  | .vint _, .int => true
  | .vbool _, .bool => true
  | .vbool _, .int => true
  | .vfloat _, .float => true
  | .vstr _, .str => true
  | .vbytes _, .bytes => true
  | .vlist _, .list => true
  | .vdict _, .dict => true
  | .vobj c _, .user c' => (classAncestors c).contains c'
  | _, _ => false

/-- `isinstance(schema, basics)` where `basics = (str, bytes, int, float,
complex)` — note Python's `bool` passes this check because `bool` subclasses
`int`. -/
def isBasic : Val → Bool
  | .vint _ => true
  | .vbool _ => true
  | .vfloat _ => true
  | .vstr _ => true
  | .vbytes _ => true
  | _ => false

/-- The payloads of the `MatchError` messages raised by the matcher, one
constructor per `raise MatchError(...)` site in the source. -/
inductive MErr where
  | typeMismatch
  | literalMismatch
  | expectedMapping
  | missingKeys (ks : List Key)
  | unexpectedKeys (ks : List Key)
  | noExtraItems
  | cannotMatchExtra (n : Nat)
  | expectedSequence
  | expectedEmpty
  | unexpectedValues (vs : List Val)
  | missingValues (vs : List Val)
  | missingAttribute (nm : String)
  | guardFalse

/-- The exceptions that can escape the matcher: `MatchError` (with its
message payload), `SchemaError`, `BindError`, and `KeyError` for the
(unreachable) missing-key dictionary accesses. -/
inductive Err where
  | merr (e : MErr)
  | schemaErr
  | bindErr
  | keyErr

/-- The attribute dictionaries of all `Binding` objects: `Binding` object id
and attribute name to the stored value, `none` when the name is unbound
(`SimpleNamespace` stores attributes in a dict keyed by name). -/
def Store : Type := Nat → String → Option Val

/-- A store with no bound names at all. -/
def emptyStore : Store := fun _ _ => none

/-- `Binding.__getattr__` semantics: a stored value if present, otherwise a
fresh `Unbound(self, name)` placeholder. -/
def getattrStore (st : Store) (ns : Nat) (nm : String) : Val :=
  match st ns nm with
  | some v => v
  | none => .unbound ns nm

/-- Write one attribute of one `Binding` object. -/
def storeSet (st : Store) (ns : Nat) (nm : String) (v : Val) : Store :=
  fun a b => if a = ns ∧ b = nm then some v else st a b

/-- `delattr` on one attribute of one `Binding` object. -/
def storeDel (st : Store) (ns : Nat) (nm : String) : Store :=
  fun a b => if a = ns ∧ b = nm then none else st a b

/-- `Binding.__setattr__`: if the name currently reads as anything other than
an `Unbound` placeholder it has already been bound, so raise `BindError`;
otherwise store the value. -/
def bindingSetattr (st : Store) (ns : Nat) (nm : String) (v : Val) :
    Except Err Store :=
  if isUnboundVal (getattrStore st ns nm) then .ok (storeSet st ns nm v)
  else .error .bindErr

/-- The per-`match`-call session bookkeeping of the `Match` object: the
placeholders bound during this attempt (`self.names`, in order), the adopted
`Binding` object (`self.binding`), and the shared mutable store of all
`Binding` objects. -/
structure SessionState where
  names : List (Nat × String)
  binding : Option Nat
  store : Store

/-- Result of one matcher step: an exception or a value, together with the
session state at that point (exceptions do not undo state changes). -/
abbrev Res (α : Type) : Type := Except Err α × SessionState

/-- The `setattr` and undo-log part of `Match.bind` (the two lines after the
binding-set check): try `setattr`; on success append the placeholder to
`self.names`; a `BindError` propagates without recording. -/
def bindPHset (ns : Nat) (nm : String) (v : Val) (st : SessionState) : Res Val :=
  match bindingSetattr st.store ns nm v with
  | .ok store' =>
      (.ok v, { st with store := store', names := st.names ++ [(ns, nm)] })
  | .error e => (.error e, st)

/-- `Match.bind(unbound, value)`: adopt the placeholder's `Binding` object if
the session has none yet (lock acquisition is not modelled); raise
`SchemaError` if a different `Binding` object is already adopted; otherwise
set the attribute and record the placeholder. -/
def bindPH (ns : Nat) (nm : String) (v : Val) (st : SessionState) : Res Val :=
  match st.binding with
  | none => bindPHset ns nm v { st with binding := some ns }
  | some b =>
      if b = ns then bindPHset ns nm v st
      else (.error .schemaErr, st)

/-- `Match.match_type`: `isinstance(data, schema)` or `MatchError`. -/
def matchType (t : PyType) (d : Val) (st : SessionState) : Res Val :=
  if pyIsInstance d t then (.ok d, st)
  else (.error (.merr .typeMismatch), st)

/-- `Match.match_equal`: `schema == data` or `MatchError`. -/
def matchEqual (s d : Val) (st : SessionState) : Res Val :=
  if pyEq s d then (.ok d, st)
  else (.error (.merr .literalMismatch), st)

/-- `... in schema` for a sequence schema. -/
def containsEll (ss : List Val) : Bool := ss.any isEll

/-- `schema[-1] is ...` (false for an empty schema). -/
def lastIsEll (ss : List Val) : Bool :=
  match ss.getLast? with
  | some v => isEll v
  | none => false

/-- `schema[0] is ...` (false for an empty schema). -/
def headIsEll (ss : List Val) : Bool :=
  match ss.head? with
  | some v => isEll v
  | none => false

/-- `schema.index(...)`: index of the first wildcard. -/
def firstEllIdx : List Val → Nat
  | [] => 0
  | x :: rest => if isEll x then 0 else firstEllIdx rest + 1

/-- `getattr(data, name)` for attribute-carrying objects; `none` models
`AttributeError`. -/
def getattrObj (d : Val) (nm : String) : Option Val :=
  match d with
  | .vobj _ attrs => lookupStr nm attrs
  | _ => none

/-- Insert an attribute into a name-sorted attribute list. -/
def insertSorted (p : String × Val) : List (String × Val) → List (String × Val)
  | [] => [p]
  | q :: rest => if p.1 ≤ q.1 then p :: q :: rest else q :: insertSorted p rest

/-- Sort attributes by name, as `dir(schema)` returns names sorted. -/
def sortAttrs : List (String × Val) → List (String × Val)
  | [] => []
  | p :: rest => insertSorted p (sortAttrs rest)

/-- `name.startswith('_')`: does the attribute name begin with an
underscore? -/
def isPrivateName (s : String) : Bool :=
  match s.data with
  | [] => false
  | c :: _ => decide (c = '_')

/-- The attribute enumeration of `Match.match_instance`: `dir(schema)` (names
sorted), keeping only public names (no leading underscore).  The modelled
universe has no callable attribute values, so the `callable` filter of the
source keeps everything. -/
def publicAttrs (attrs : List (String × Val)) : List (String × Val) :=
  (sortAttrs attrs).filter (fun p => !(isPrivateName p.1))

theorem one_le_sizeOf_list {α : Type} [SizeOf α] (xs : List α) :
    1 ≤ sizeOf xs := by
  cases xs <;> simp <;> omega

theorem sizeOf_take_le {α : Type} [SizeOf α] (xs : List α) (n : Nat) :
    sizeOf (xs.take n) ≤ sizeOf xs := by
  induction xs generalizing n with
  | nil => simp [List.take]
  | cons x rest ih =>
    cases n with
    | zero => simp [List.take]; omega
    | succ m => simp [List.take]; have := ih m; omega

theorem sizeOf_drop_le {α : Type} [SizeOf α] (xs : List α) (n : Nat) :
    sizeOf (xs.drop n) ≤ sizeOf xs := by
  induction xs generalizing n with
  | nil => simp [List.drop]
  | cons x rest ih =>
    cases n with
    | zero => simp
    | succ m => have := ih m; simp [List.drop]; omega

theorem sizeOf_take_lt {α : Type} [SizeOf α] (xs : List α) (n : Nat)
    (h : n < xs.length) : sizeOf (xs.take n) < sizeOf xs := by
  induction xs generalizing n with
  | nil => simp at h
  | cons x rest ih =>
    cases n with
    | zero =>
      simp [List.take]
      have := one_le_sizeOf_list rest
      omega
    | succ m =>
      simp at h
      have := ih m h
      simp [List.take]
      omega

theorem sizeOf_drop_lt {α : Type} [SizeOf α] (xs : List α) (n : Nat)
    (hn : 0 < n) (hx : xs ≠ []) : sizeOf (xs.drop n) < sizeOf xs := by
  cases xs with
  | nil => simp at hx
  | cons x rest =>
    cases n with
    | zero => omega
    | succ m =>
      have := sizeOf_drop_le rest m
      simp [List.drop]
      omega

theorem sizeOf_dropLast_lt {α : Type} [SizeOf α] (xs : List α) (hx : xs ≠ []) :
    sizeOf xs.dropLast < sizeOf xs := by
  induction xs with
  | nil => simp at hx
  | cons x rest ih =>
    cases rest with
    | nil =>
      simp [List.dropLast]
      try omega
    | cons y rest' =>
      have h2 : (y :: rest') ≠ [] := by simp
      have := ih h2
      simp [List.dropLast] at this ⊢
      omega

theorem sizeOf_tail_lt {α : Type} [SizeOf α] (xs : List α) (hx : xs ≠ []) :
    sizeOf xs.tail < sizeOf xs := by
  cases xs with
  | nil => simp at hx
  | cons x rest =>
    simp [List.tail]
    try omega

theorem lastIsEll_ne_nil {ss : List Val} (h : lastIsEll ss = true) : ss ≠ [] := by
  intro he
  subst he
  simp [lastIsEll] at h

theorem headIsEll_ne_nil {ss : List Val} (h : headIsEll ss = true) : ss ≠ [] := by
  intro he
  subst he
  simp [headIsEll] at h

theorem firstEllIdx_lt_length {ss : List Val} (h : containsEll ss = true) :
    firstEllIdx ss < ss.length := by
  induction ss with
  | nil => simp [containsEll] at h
  | cons x rest ih =>
    by_cases hx : isEll x = true
    · simp [firstEllIdx, hx]
    · simp [containsEll, hx] at h
      have := ih (by simpa [containsEll] using h)
      simp [firstEllIdx, hx]
      omega

theorem firstEllIdx_pos {ss : List Val} (h : headIsEll ss = false)
    (hne : ss ≠ []) : 1 ≤ firstEllIdx ss := by
  cases ss with
  | nil => simp at hne
  | cons x rest =>
    simp [headIsEll] at h
    simp [firstEllIdx, h]

theorem sizeOf_getattrObj {d : Val} {nm : String} {v : Val}
    (h : getattrObj d nm = some v) : sizeOf v < sizeOf d := by
  cases d <;> simp [getattrObj] at h
  case vobj cls attrs =>
    have := sizeOf_lookupStr h
    simp
    omega

mutual

/-- `Match.match`: dispatch on the shape of the schema, in source order —
placeholder, wildcard, type reference, literal scalar, mapping, sequence,
and finally arbitrary object (`match_instance`, inlined here: the
`type(schema)` gate, the equality short-circuit, then attribute matching). -/
def mmatch (s d : Val) (st : SessionState) : Res Val :=
  match s with
  | .unbound ns nm => bindPH ns nm d st
  | .ellipsis => (.ok d, st)
  | .vtype t => matchType t d st
  | .vint _ => matchEqual s d st
  | .vbool _ => matchEqual s d st
  | .vfloat _ => matchEqual s d st
  | .vstr _ => matchEqual s d st
  | .vbytes _ => matchEqual s d st
  | .vdict se => matchMapping true se d st
  | .vlist ss =>
    match d with
    | .vlist ds =>
      match matchSequence ss ds st with
      | (.ok vs, st') => (.ok (.vlist vs), st')
      | (.error e, st') => (.error e, st')
    | _ => (.error (.merr .expectedSequence), st)
  | .vobj cls sattrs =>
    -- match_instance: self.match_type(type(schema), data)
    if pyIsInstance d (.user cls) then
      -- try: return self.match_equal(schema, data) except MatchError: pass
      if pyEq (.vobj cls sattrs) d then (.ok d, st)
      else
        match matchAttrs (publicAttrs sattrs) d st with
        | (.ok _, st') => (.ok d, st')
        | (.error e, st') => (.error e, st')
    else (.error (.merr .typeMismatch), st)
termination_by (sizeOf d, 4, sizeOf s)
decreasing_by
  all_goals first
    | (simp [Prod.lex_def]; done)
    | (simp [Prod.lex_def]; omega)

/-- The attribute loop of `Match.match_instance`: for each public attribute
of the schema, `getattr` the data's attribute (`AttributeError` becomes a
"missing attribute" `MatchError`) and recursively match. -/
def matchAttrs (sattrs : List (String × Val)) (d : Val) (st : SessionState) :
    Res Unit :=
  match sattrs with
  | [] => (.ok (), st)
  | (nm, sv) :: rest =>
    match hG : getattrObj d nm with
    | none => (.error (.merr (.missingAttribute nm)), st)
    | some dv =>
      match mmatch sv dv st with
      | (.ok _, st') => matchAttrs rest d st'
      | (.error e, st') => (.error e, st')
termination_by (sizeOf d, 1, sizeOf sattrs)
decreasing_by
  all_goals first
    | (simp [Prod.lex_def]; done)
    | (simp [Prod.lex_def]; omega)
    | (have h := sizeOf_getattrObj hG
       simp [Prod.lex_def]
       omega)

/-- `Match.match_sequence`, translated branch by branch, bugs included: the
two length checks both fire on `len(schema) > len(data)` (the second is
dead), so surplus data is silently truncated by the element-wise zip. -/
def matchSequence (ss ds : List Val) (st : SessionState) : Res (List Val) :=
  -- if data and not schema: raise MatchError('expected empty ...')
  if !ds.isEmpty && ss.isEmpty then (.error (.merr .expectedEmpty), st)
  -- if ... not in schema:
  else if hC : containsEll ss = false then
    if ss.length > ds.length then
      (.error (.merr (.unexpectedValues (ds.drop ss.length))), st)
    else if ds.length < ss.length then
      (.error (.merr (.missingValues (ss.drop ds.length))), st)
    else matchZip ss ds st
  -- if ... is schema[-1]:
  else if hL : lastIsEll ss = true then
    match matchSequence ss.dropLast (ds.take (ss.length - 1)) st with
    | (.ok matched, st') => (.ok (matched ++ ds.drop (ss.length - 1)), st')
    | (.error e, st') => (.error e, st')
  -- if ... is schema[0]:  (split = 1 - len(schema), a negative slice index)
  else if hH : headIsEll ss = true then
    match matchSequence ss.tail (ds.drop (ds.length - (ss.length - 1))) st with
    | (.ok matched, st') =>
        (.ok (ds.take (ds.length - (ss.length - 1)) ++ matched), st')
    | (.error e, st') => (.error e, st')
  -- split = schema.index(...)
  else
    match matchSequence (ss.take (firstEllIdx ss)) (ds.take (firstEllIdx ss)) st with
    | (.ok a, st') =>
      match matchSequence (ss.drop (firstEllIdx ss)) (ds.drop (firstEllIdx ss)) st' with
      | (.ok b, st'') => (.ok (a ++ b), st'')
      | (.error e, st'') => (.error e, st'')
    | (.error e, st') => (.error e, st')
termination_by (sizeOf ds, 1, sizeOf ss)
decreasing_by
  all_goals first
    | (simp [Prod.lex_def]; done)
    | (simp [Prod.lex_def]; omega)
    | (have hl : lastIsEll ss = true := by assumption
       have h1 := sizeOf_take_le ds (ss.length - 1)
       have h2 := sizeOf_dropLast_lt ss (lastIsEll_ne_nil hl)
       simp [Prod.lex_def]
       omega)
    | (have hh : headIsEll ss = true := by assumption
       have h1 := sizeOf_drop_le ds (ds.length - (ss.length - 1))
       have h2 := sizeOf_tail_lt ss (headIsEll_ne_nil hh)
       simp [Prod.lex_def]
       omega)
    | (have hC' : containsEll ss = true := by
         cases hval : containsEll ss
         · exact absurd hval (by assumption)
         · rfl
       have hH' : headIsEll ss = false := by
         cases hval : headIsEll ss
         · rfl
         · exact absurd hval (by assumption)
       have hne : ss ≠ [] := by
         intro hx
         subst hx
         simp [containsEll] at hC'
       have h1 := sizeOf_take_le ds (firstEllIdx ss)
       have h2 := sizeOf_take_lt ss (firstEllIdx ss) (firstEllIdx_lt_length hC')
       have h3 := sizeOf_drop_le ds (firstEllIdx ss)
       have h4 := sizeOf_drop_lt ss (firstEllIdx ss)
         (firstEllIdx_pos hH' hne) hne
       simp [Prod.lex_def]
       omega)

/-- The element-wise zip of `Match.match_sequence`:
`cls(map(self.match, schema, data))` — `map` stops at the shorter of the two
lists, evaluated left to right. -/
def matchZip (ss ds : List Val) (st : SessionState) : Res (List Val) :=
  match ss, ds with
  | x :: ss', y :: ds' =>
    match mmatch x y st with
    | (.ok v, st') =>
      match matchZip ss' ds' st' with
      | (.ok vs, st'') => (.ok (v :: vs), st'')
      | (.error e, st'') => (.error e, st'')
    | (.error e, st') => (.error e, st')
  | _, _ => (.ok [], st)
termination_by (sizeOf ds, 0, sizeOf ss)
decreasing_by
  all_goals first
    | (simp [Prod.lex_def]; done)
    | (simp [Prod.lex_def]; omega)

/-- `Match.match_mapping` with `Match.match_mapping_ellipsis` folded in as
its first branch.  Key-set operations are expressed on the key lists in
iteration order: `missing = schema.keys() - data.keys()` is the filter of
the schema's keys not contained in the data's keys, and `missing == {...}`
becomes that list equalling `[Key.ell]` — exact, since Python dicts hold
each key at most once.  The `allow` flag is `true` for the call made by
`Match.match`; the recursive call that `match_mapping_ellipsis` makes back
into `match_mapping` passes `false`, which is sound because at that call
the updated schema's key set always equals the data's key set (`missing`
and `excess` are both empty there, so the wildcard branch cannot
re-trigger — see `inner_mapping_flag_irrelevant` below); the flag only
makes termination evident. -/
def matchMapping (allow : Bool) (se : List (Key × Val)) (d : Val)
    (st : SessionState) : Res Val :=
  match d with
  | .vdict de =>
    -- missing = schema.keys() - data.keys(); excess = data.keys() - schema.keys()
    if hA : allow = true ∧
        (se.map Prod.fst).filter (fun k => !((de.map Prod.fst).contains k)) = [Key.ell] then
      -- match_mapping_ellipsis: value = schema.pop(...)
      match hV : lookupKV .ell se with
      | none => (.error .keyErr, st)  -- KeyError; unreachable, ... is a schema key here
      | some value =>
        -- extra = {k: v for k, v in data.items() if k not in schema}
        if isEll value ∨
            (de.filter (fun p =>
              !(((se.filter (fun q => !(decide (q.1 = Key.ell)))).map Prod.fst).contains p.1))).length = 1 then
          -- schema.update(extra); return self.match_mapping(schema, data)
          matchMapping false
            ((se.filter (fun q => !(decide (q.1 = Key.ell)))) ++
              (de.filter (fun p =>
                !(((se.filter (fun q => !(decide (q.1 = Key.ell)))).map Prod.fst).contains p.1))))
            (.vdict de) st
        else if (de.filter (fun p =>
            !(((se.filter (fun q => !(decide (q.1 = Key.ell)))).map Prod.fst).contains p.1))).length = 0 then
          (.error (.merr .noExtraItems), st)
        else
          (.error (.merr (.cannotMatchExtra
            (de.filter (fun p =>
              !(((se.filter (fun q => !(decide (q.1 = Key.ell)))).map Prod.fst).contains p.1))).length)), st)
    else if ((se.map Prod.fst).filter (fun k => !((de.map Prod.fst).contains k))) ≠ [] then
      (.error (.merr (.missingKeys
        ((se.map Prod.fst).filter (fun k => !((de.map Prod.fst).contains k))))), st)
    else if ((de.map Prod.fst).filter (fun k => !((se.map Prod.fst).contains k))) ≠ [] then
      (.error (.merr (.unexpectedKeys
        ((de.map Prod.fst).filter (fun k => !((se.map Prod.fst).contains k))))), st)
    else
      match matchMapZip se de st with
      | (.ok entries, st') => (.ok (.vdict entries), st')
      | (.error e, st') => (.error e, st')
  | _ => (.error (.merr .expectedMapping), st)
termination_by (sizeOf d, 2 + allow.toNat, sizeOf se)
decreasing_by
  all_goals first
    | (simp [Prod.lex_def]; done)
    | (simp [Prod.lex_def]; omega)
    | (have hA1 : allow = true := hA.1
       simp [Prod.lex_def, hA1]
       try omega)

/-- The final dict comprehension of `Match.match_mapping`:
`{k: self.match(nest, data[k]) for k, nest in schema.items()}`, evaluated in
schema insertion order. -/
def matchMapZip (se de : List (Key × Val)) (st : SessionState) :
    Res (List (Key × Val)) :=
  match se with
  | [] => (.ok [], st)
  | (k, nest) :: rest =>
    match hK : lookupKV k de with
    | none => (.error .keyErr, st)  -- KeyError; unreachable after the missing-keys check
    | some dv =>
      match mmatch nest dv st with
      | (.ok v, st') =>
        match matchMapZip rest de st' with
        | (.ok vs, st'') => (.ok ((k, v) :: vs), st'')
        | (.error e, st'') => (.error e, st'')
      | (.error e, st') => (.error e, st')
termination_by (sizeOf (Val.vdict de), 1, sizeOf se)
decreasing_by
  all_goals first
    | (simp [Prod.lex_def]; done)
    | (simp [Prod.lex_def]; omega)
    | (have h := sizeOf_lookupKV hK
       simp [Prod.lex_def]
       omega)

end

/-- The rollback loop of `Match.__exit__`: `delattr` every placeholder
recorded in `self.names`, in the order recorded. -/
def rollback (names : List (Nat × String)) (store : Store) : Store :=
  names.foldl (fun s p => storeDel s p.1 p.2) store

/-- The guard loop of the module-level `match`: each guard is a
zero-argument callable reading the current bindings; the first guard
returning false raises `MatchError`. -/
def runGuards (gs : List (Store → Bool)) (st : SessionState) : Res Unit :=
  match gs with
  | [] => (.ok (), st)
  | g :: rest =>
    if g st.store then runGuards rest st
    else (.error (.merr .guardFalse), st)

/-- The module-level `match(schema, data, *guards)`: run a fresh `Match`
session as a context manager; on exit with a `MatchError` (and only then),
`Match.__exit__` deletes every recorded binding; any other exception, and
success, leave the bindings as they are.  The result pairs the returned
value or exception with the final state of all `Binding` stores. -/
def pymatch (s d : Val) (gs : List (Store → Bool)) (st0 : Store) :
    Except Err Val × Store :=
  match
    (match mmatch s d ⟨[], none, st0⟩ with
     | (.ok v, stA) =>
       match runGuards gs stA with
       | (.ok _, stB) => ((Except.ok v : Except Err Val), stB)
       | (.error e, stB) => (.error e, stB)
     | (.error e, stA) => (.error e, stA)) with
  | (.error (.merr e), st1) => (.error (.merr e), rollback st1.names st1.store)
  | (r, st1) => (r, st1.store)

/-- `Switch.case(schema, *guards)` for a `Switch` holding `data`: a
`MatchError` is converted into the fail signal `false`; any other exception
propagates; a successful match returns `true`. -/
def caseFn (data schema : Val) (gs : List (Store → Bool)) (st0 : Store) :
    Except Err Bool × Store :=
  match pymatch schema data gs st0 with
  | (.ok _, st) => (.ok true, st)
  | (.error (.merr _), st) => (.ok false, st)
  | (.error e, st) => (.error e, st)

attribute [simp] runGuards rollback storeDel storeSet getattrStore emptyStore
  bindingSetattr bindPHset bindPH matchType matchEqual isEll isUnboundVal
  containsEll lastIsEll headIsEll firstEllIdx lookupKV lookupStr numVal?
  pyIsInstance classAncestors isBasic getattrObj insertSorted sortAttrs
  publicAttrs isPrivateName

def Evolves (a b : SessionState) : Prop :=
  (∀ p, p ∈ a.names → p ∈ b.names) ∧
  (∀ x y, b.store x y = a.store x y ∨ (x, y) ∈ b.names)

theorem evolves_refl (a : SessionState) : Evolves a a :=
  ⟨fun _ h => h, fun _ _ => Or.inl rfl⟩

theorem evolves_trans {a b c : SessionState} (h1 : Evolves a b) (h2 : Evolves b c) :
    Evolves a c := by
  constructor
  · exact fun p hp => h2.1 p (h1.1 p hp)
  · intro x y
    rcases h2.2 x y with h | h
    · rcases h1.2 x y with h' | h'
      · exact Or.inl (h.trans h')
      · exact Or.inr (h2.1 _ h')
    · exact Or.inr h

theorem evolves_bindPHset (ns : Nat) (nm : String) (v : Val) (st : SessionState) :
    Evolves st (bindPHset ns nm v st).2 := by
  by_cases hU : isUnboundVal (getattrStore st.store ns nm) = true
  · simp only [bindPHset, bindingSetattr]
    rw [if_pos hU]
    constructor
    · intro p hp
      simp [hp]
    · intro x y
      by_cases hxy : x = ns ∧ y = nm
      · right
        simp [hxy.1, hxy.2]
      · left
        simp [storeSet, hxy]
  · simp only [bindPHset, bindingSetattr]
    rw [if_neg hU]
    exact evolves_refl st

theorem evolves_bindPH (ns : Nat) (nm : String) (v : Val) (st : SessionState) :
    Evolves st (bindPH ns nm v st).2 := by
  unfold bindPH
  cases hB : st.binding with
  | none => exact evolves_bindPHset ns nm v { st with binding := some ns }
  | some b =>
    by_cases hb : b = ns
    · simp only [hb, if_pos]
      exact evolves_bindPHset ns nm v st
    · simp only [hb, if_neg]
      exact evolves_refl st

theorem snd_matchType (t : PyType) (d : Val) (st : SessionState) :
    (matchType t d st).2 = st := by
  unfold matchType
  split <;> rfl

theorem snd_matchEqual (s d : Val) (st : SessionState) :
    (matchEqual s d st).2 = st := by
  unfold matchEqual
  split <;> rfl

set_option maxHeartbeats 2000000 in
theorem evolves_all :
    (∀ s d st, Evolves st (mmatch s d st).2) ∧
    (∀ sattrs d st, Evolves st (matchAttrs sattrs d st).2) ∧
    (∀ ss ds st, Evolves st (matchSequence ss ds st).2) ∧
    (∀ ss ds st, Evolves st (matchZip ss ds st).2) ∧
    (∀ allow se d st, Evolves st (matchMapping allow se d st).2) ∧
    (∀ se de st, Evolves st (matchMapZip se de st).2) := by
  apply mmatch.mutual_induct <;> intros
  all_goals try (first
    | rw [mmatch.eq_def]
    | rw [matchAttrs.eq_def]
    | rw [matchSequence.eq_def]
    | rw [matchZip.eq_def]
    | rw [matchMapping.eq_def]
    | rw [matchMapZip.eq_def])
  all_goals try (first
    | exact evolves_refl _
    | (simp only [*]
       first
         | exact evolves_refl _
         | exact evolves_bindPH _ _ _ _
         | (rw [snd_matchType]; exact evolves_refl _)
         | (rw [snd_matchEqual]; exact evolves_refl _)))
  all_goals try (repeat split)
  all_goals try injections
  all_goals try subst_vars
  all_goals try dsimp only
  all_goals try (simp only [*] at *)
  all_goals try dsimp only
  all_goals try (first
    | exact evolves_refl _
    | assumption
    | exact evolves_bindPH _ _ _ _
    | (rw [snd_matchType]; exact evolves_refl _)
    | (rw [snd_matchEqual]; exact evolves_refl _)
    | (exact evolves_trans (by assumption) (by assumption))
    | (exact evolves_trans (by assumption) (evolves_trans (by assumption) (by assumption))))
  all_goals try (simp_all only [Prod.mk.injEq, Except.ok.injEq, Except.error.injEq])
  all_goals try subst_vars
  all_goals try (repeat split)
  all_goals try injections
  all_goals try subst_vars
  all_goals try dsimp only
  all_goals try (simp only [*] at *)
  all_goals try dsimp only
  all_goals try subst_vars
  all_goals try (first
    | exact evolves_refl _
    | assumption
    | exact evolves_bindPH _ _ _ _
    | (rw [snd_matchType]; exact evolves_refl _)
    | (rw [snd_matchEqual]; exact evolves_refl _)
    | (exact evolves_trans (by assumption) (by assumption))
    | (exact evolves_trans (by assumption) (evolves_trans (by assumption) (by assumption))))
  all_goals try (simp_all only [Prod.mk.injEq, Except.ok.injEq, Except.error.injEq])
  all_goals try subst_vars
  all_goals try simp_all
  all_goals try subst_vars
  all_goals try dsimp only
  all_goals try (first
    | exact evolves_refl _
    | assumption
    | exact evolves_bindPH _ _ _ _
    | (rw [snd_matchType]; exact evolves_refl _)
    | (rw [snd_matchEqual]; exact evolves_refl _)
    | (exact evolves_trans (by assumption) (by assumption))
    | (exact evolves_trans (by assumption) (evolves_trans (by assumption) (by assumption))))

theorem snd_runGuards (gs : List (Store → Bool)) (st : SessionState) :
    (runGuards gs st).2 = st := by
  induction gs with
  | nil => rfl
  | cons g rest ih =>
    simp only [runGuards]
    split
    · exact ih
    · rfl

theorem rollback_not_mem (names : List (Nat × String)) (store : Store)
    {x : Nat} {y : String} (h : (x, y) ∉ names) :
    rollback names store x y = store x y := by
  induction names generalizing store with
  | nil => rfl
  | cons p rest ih =>
    have hxp : (x, y) ≠ p := fun hh => h (hh ▸ List.mem_cons_self p rest)
    have hxr : (x, y) ∉ rest := fun hh => h (List.mem_cons_of_mem p hh)
    simp only [rollback, List.foldl_cons] at *
    rw [ih (storeDel store p.1 p.2) hxr]
    simp only [storeDel]
    have : ¬(x = p.1 ∧ y = p.2) := by
      intro ⟨h1, h2⟩
      exact hxp (by cases p; simp_all)
    rw [if_neg this]

theorem rollback_mem (names : List (Nat × String)) (store : Store)
    {x : Nat} {y : String} (h : (x, y) ∈ names) :
    rollback names store x y = none := by
  induction names generalizing store with
  | nil => cases h
  | cons p rest ih =>
    simp only [rollback, List.foldl_cons] at *
    by_cases hr : (x, y) ∈ rest
    · exact ih _ hr
    · have hp : p = (x, y) := by
        rcases List.mem_cons.mp h with h1 | h1
        · exact h1.symm
        · exact absurd h1 hr
      have hnm := rollback_not_mem rest (storeDel store p.1 p.2) hr
      unfold rollback at hnm
      rw [hnm]
      subst hp
      simp [storeDel]

/-- After any evolution of the session from a fresh session on `st0`,
rolling back the recorded names leaves every slot either as it was in `st0`
or deleted. -/
theorem rollback_evolved {st0 : Store} {stA : SessionState}
    (hev : Evolves ⟨[], none, st0⟩ stA) (x : Nat) (y : String) :
    rollback stA.names stA.store x y = st0 x y ∨
      rollback stA.names stA.store x y = none := by
  by_cases hm : (x, y) ∈ stA.names
  · right
    exact rollback_mem _ _ hm
  · left
    rw [rollback_not_mem _ _ hm]
    rcases hev.2 x y with h | h
    · exact h
    · exact absurd h hm

/-- A `match` call that exits with a `MatchError` leaves every `Binding`
slot either exactly as it was before the call or deleted (unbound): the
`Match.__exit__` rollback removes precisely the bindings recorded during
the attempt. -/
theorem pymatch_merr_store {s d : Val} {gs : List (Store → Bool)} {st0 : Store}
    {e : MErr} {st' : Store}
    (hp : pymatch s d gs st0 = (.error (.merr e), st')) :
    ∀ x y, st' x y = st0 x y ∨ st' x y = none := by
  have hev := evolves_all.1 s d ⟨[], none, st0⟩
  unfold pymatch at hp
  rcases hM : mmatch s d ⟨[], none, st0⟩ with ⟨r, stA⟩
  rw [hM] at hp hev
  cases r with
  | ok v =>
    dsimp only at hp
    rcases hG : runGuards gs stA with ⟨rg, stB⟩
    have hB : stB = stA := by
      have h2 := snd_runGuards gs stA
      rw [hG] at h2
      exact h2
    rw [hG] at hp
    cases rg with
    | ok u => simp at hp
    | error eg =>
      cases eg with
      | merr m =>
        dsimp only at hp
        simp only [Prod.mk.injEq] at hp
        obtain ⟨h1, h2⟩ := hp
        subst h2
        rw [hB]
        intro x y
        exact rollback_evolved (by simpa using hev) x y
      | schemaErr => simp at hp
      | bindErr => simp at hp
      | keyErr => simp at hp
  | error e0 =>
    cases e0 with
    | merr m =>
      dsimp only at hp
      simp only [Prod.mk.injEq] at hp
      obtain ⟨h1, h2⟩ := hp
      subst h2
      intro x y
      exact rollback_evolved (by simpa using hev) x y
    | schemaErr => simp at hp
    | bindErr => simp at hp
    | keyErr => simp at hp

/-- C1: if a top-level `match(schema, data)` call (guards included — a guard
returning false raises `MatchError`) exits with a `MatchError`, then every
name binding performed during the attempt is deleted before the error
propagates: afterwards, every `Binding` slot is either exactly what it was
before the call or unbound, and any name unbound before the attempt is
still unbound — no residual bindings from the failed attempt remain
observable. -/
theorem c1_match_error_unwinds_all_bindings :
    ∀ (s d : Val) (gs : List (Store → Bool)) (st0 : Store) (e : MErr)
      (st' : Store),
      pymatch s d gs st0 = (.error (.merr e), st') →
      ∀ ns nm,
        (st' ns nm = st0 ns nm ∨ st' ns nm = none) ∧
        (isUnboundVal (getattrStore st0 ns nm) = true →
          isUnboundVal (getattrStore st' ns nm) = true) := by
  intro s d gs st0 e st' hp ns nm
  refine ⟨pymatch_merr_store hp ns nm, ?_⟩
  intro hu
  rcases pymatch_merr_store hp ns nm with h | h
  · unfold getattrStore at hu ⊢
    rw [h]
    exact hu
  · unfold getattrStore
    rw [h]
    simp [isUnboundVal]

/-- C1 witness: the claim's own example, schema `[o.x, o.y, 42]`.  Against
`[1, 2]` the match fails before any binding; against `[1, 2, 43]` it binds
`x` and `y` and then fails on `42 != 43`; in both cases `x` and `y` are
unbound afterwards. -/
theorem c1_match_error_unwinds_all_bindings_witness :
    isUnboundVal (getattrStore
      (pymatch (.vlist [.unbound 0 "x", .unbound 0 "y", .vint 42])
        (.vlist [.vint 1, .vint 2]) [] emptyStore).2 0 "x") = true ∧
    isUnboundVal (getattrStore
      (pymatch (.vlist [.unbound 0 "x", .unbound 0 "y", .vint 42])
        (.vlist [.vint 1, .vint 2]) [] emptyStore).2 0 "y") = true ∧
    isUnboundVal (getattrStore
      (pymatch (.vlist [.unbound 0 "x", .unbound 0 "y", .vint 42])
        (.vlist [.vint 1, .vint 2, .vint 43]) [] emptyStore).2 0 "x") = true ∧
    isUnboundVal (getattrStore
      (pymatch (.vlist [.unbound 0 "x", .unbound 0 "y", .vint 42])
        (.vlist [.vint 1, .vint 2, .vint 43]) [] emptyStore).2 0 "y") = true := by
  have h1 : (pymatch (.vlist [.unbound 0 "x", .unbound 0 "y", .vint 42])
      (.vlist [.vint 1, .vint 2]) [] emptyStore).1 =
      .error (.merr (.unexpectedValues [])) := by
    simp [pymatch, mmatch, matchSequence, matchZip]
  have h2 : (pymatch (.vlist [.unbound 0 "x", .unbound 0 "y", .vint 42])
      (.vlist [.vint 1, .vint 2, .vint 43]) [] emptyStore).1 =
      .error (.merr .literalMismatch) := by
    simp [pymatch, mmatch, matchSequence, matchZip, pyEq, numVal?]
  have hu : ∀ nm, isUnboundVal (getattrStore emptyStore 0 nm) = true := by
    intro nm
    simp [getattrStore, emptyStore, isUnboundVal]
  have hp1 : pymatch (.vlist [.unbound 0 "x", .unbound 0 "y", .vint 42])
      (.vlist [.vint 1, .vint 2]) [] emptyStore =
      (.error (.merr (.unexpectedValues [])),
        (pymatch (.vlist [.unbound 0 "x", .unbound 0 "y", .vint 42])
          (.vlist [.vint 1, .vint 2]) [] emptyStore).2) := by
    rw [← h1]
  have hp2 : pymatch (.vlist [.unbound 0 "x", .unbound 0 "y", .vint 42])
      (.vlist [.vint 1, .vint 2, .vint 43]) [] emptyStore =
      (.error (.merr .literalMismatch),
        (pymatch (.vlist [.unbound 0 "x", .unbound 0 "y", .vint 42])
          (.vlist [.vint 1, .vint 2, .vint 43]) [] emptyStore).2) := by
    rw [← h2]
  exact ⟨(c1_match_error_unwinds_all_bindings _ _ _ _ _ _ hp1 0 "x").2 (hu "x"),
    (c1_match_error_unwinds_all_bindings _ _ _ _ _ _ hp1 0 "y").2 (hu "y"),
    (c1_match_error_unwinds_all_bindings _ _ _ _ _ _ hp2 0 "x").2 (hu "x"),
    (c1_match_error_unwinds_all_bindings _ _ _ _ _ _ hp2 0 "y").2 (hu "y")⟩

/-- C2: the two length checks of `match_sequence` are broken.  Both compare
`len(schema) > len(data)`, so: a schema `[1]` that is SHORTER than the data
`[1, 2]` silently succeeds with the truncated result `[1]` (the element-wise
zip stops at the shorter list), and a schema `[1, 2]` that is LONGER than
the data `[1]` raises the "got unexpected values" `MatchError` whose
reported tail `data[len(schema):]` is provably empty — the "missing values"
branch is dead code. -/
theorem c2_sequence_length_checks_are_broken :
    (pymatch (.vlist [.vint 1]) (.vlist [.vint 1, .vint 2]) [] emptyStore).1 =
      .ok (.vlist [.vint 1]) ∧
    (pymatch (.vlist [.vint 1, .vint 2]) (.vlist [.vint 1]) [] emptyStore).1 =
      .error (.merr (.unexpectedValues [])) := by
  constructor
  · simp [pymatch, mmatch, matchSequence, matchZip, pyEq, numVal?]
  · simp [pymatch, mmatch, matchSequence, matchZip]

/-- C9: once a name holds a concrete (non-placeholder) value on a `Binding`,
setting that name again without an intervening clear raises `BindError`, and
the stored value is unchanged (the failed `__setattr__` produces no new
store). -/
theorem c9_rebind_raises_bind_error :
    ∀ (st : Store) (ns : Nat) (nm : String) (v w : Val) (st' : Store),
      bindingSetattr st ns nm v = .ok st' →
      isUnboundVal v = false →
      bindingSetattr st' ns nm w = .error .bindErr ∧
        getattrStore st' ns nm = v := by
  intro st ns nm v w st' h1 h2
  unfold bindingSetattr at h1
  by_cases hu : isUnboundVal (getattrStore st ns nm) = true
  · rw [if_pos hu] at h1
    have hst : st' = storeSet st ns nm v := by
      injection h1 with h
      exact h.symm
    subst hst
    have hget : getattrStore (storeSet st ns nm v) ns nm = v := by
      simp [getattrStore, storeSet]
    refine ⟨?_, hget⟩
    unfold bindingSetattr
    rw [hget, h2]
    simp
  · rw [if_neg hu] at h1
    cases h1

/-- C9 witness: bind `x := 1` on a fresh `Binding`, then attempt to bind it
again; the second attempt fails with `BindError` and `x` still reads `1`. -/
theorem c9_rebind_raises_bind_error_witness :
    bindingSetattr (storeSet emptyStore 0 "x" (.vint 1)) 0 "x" (.vint 2) =
      .error .bindErr ∧
    getattrStore (storeSet emptyStore 0 "x" (.vint 1)) 0 "x" = .vint 1 := by
  have h1 : bindingSetattr emptyStore 0 "x" (.vint 1) =
      .ok (storeSet emptyStore 0 "x" (.vint 1)) := by
    simp [bindingSetattr, getattrStore, emptyStore, isUnboundVal, storeSet]
  exact c9_rebind_raises_bind_error emptyStore 0 "x" (.vint 1) (.vint 2) _ h1
    (by simp [isUnboundVal])

/-- C10: a literal scalar schema (`int`/`bool`/`float`/`str`/`bytes` — the
`basics` tuple, which `bool` passes as a subclass of `int`) is matched by
equality only, never by the data's runtime type: whenever `schema == data`
under Python equality the match succeeds and returns the data, whatever the
data's type (`1` matches `True` and `1.0`); when `schema != data` it fails
with the literal-mismatch `MatchError`. -/
theorem c10_literal_scalar_matching_is_pure_equality :
    ∀ (s d : Val) (st0 : Store),
      isBasic s = true →
      (pyEq s d = true → pymatch s d [] st0 = (.ok d, st0)) ∧
      (pyEq s d = false →
        pymatch s d [] st0 = (.error (.merr .literalMismatch), st0)) := by
  intro s d st0 hb
  have hmm : ∀ st : SessionState, mmatch s d st = matchEqual s d st := by
    intro st
    cases s <;> simp_all [isBasic] <;> simp [mmatch]
  constructor
  · intro he
    unfold pymatch
    rw [hmm, matchEqual, if_pos he]
    rfl
  · intro he
    unfold pymatch
    rw [hmm, matchEqual, if_neg (by simp [he])]
    dsimp only
    rfl

/-- C10 witness: the schema `1` matches the data `True` and the data `1.0`
(types differ, values compare equal), and fails against `2`. -/
theorem c10_literal_scalar_matching_is_pure_equality_witness :
    pymatch (.vint 1) (.vbool true) [] emptyStore = (.ok (.vbool true), emptyStore) ∧
    pymatch (.vint 1) (.vfloat 1) [] emptyStore = (.ok (.vfloat 1), emptyStore) ∧
    pymatch (.vint 1) (.vint 2) [] emptyStore =
      (.error (.merr .literalMismatch), emptyStore) := by
  refine ⟨(c10_literal_scalar_matching_is_pure_equality _ _ _ (by simp [isBasic])).1 ?_,
    (c10_literal_scalar_matching_is_pure_equality _ _ _ (by simp [isBasic])).1 ?_,
    (c10_literal_scalar_matching_is_pure_equality _ _ _ (by simp [isBasic])).2 ?_⟩
  · simp [pyEq]
  · simp [pyEq]
  · simp [pyEq]

/-- C3 counterexample: `Switch.case` does NOT wipe every name currently in
the binding set on failure — the source `Switch` does not even hold a
binding set, and `case` only relies on the match session's own rollback.
With `x` already bound to `5` before the call, a failing
`case` returns `false` and leaves `x` bound to `5`, not reset to unbound. -/
theorem c3_case_does_not_wipe_preexisting_bindings :
    (caseFn (.vint 1) (.vint 2) [] (storeSet emptyStore 0 "x" (.vint 5))).1 =
      .ok false ∧
    (caseFn (.vint 1) (.vint 2) [] (storeSet emptyStore 0 "x" (.vint 5))).2 0 "x" =
      some (.vint 5) ∧
    isUnboundVal (getattrStore
      (caseFn (.vint 1) (.vint 2) [] (storeSet emptyStore 0 "x" (.vint 5))).2
      0 "x") = false := by
  refine ⟨?_, ?_, ?_⟩ <;>
    simp [caseFn, pymatch, mmatch, pyEq, numVal?, storeSet, emptyStore,
      getattrStore, isUnboundVal]

/-- C3 (amended): when `switch.case(schema, ...)` fails and returns `false`,
only the bindings made during this attempt are cleared (by the match
session's rollback) before `case` returns: every slot is either exactly as
before the call or unbound, and every name unbound before is unbound after.
Names already bound before the attempt are NOT wiped. -/
theorem c3_case_failure_clears_attempt_bindings :
    ∀ (data schema : Val) (gs : List (Store → Bool)) (st0 st' : Store),
      caseFn data schema gs st0 = (.ok false, st') →
      ∀ ns nm,
        (st' ns nm = st0 ns nm ∨ st' ns nm = none) ∧
        (isUnboundVal (getattrStore st0 ns nm) = true →
          isUnboundVal (getattrStore st' ns nm) = true) := by
  intro data schema gs st0 st' h ns nm
  unfold caseFn at h
  rcases hP : pymatch schema data gs st0 with ⟨r, st2⟩
  rw [hP] at h
  cases r with
  | ok v => simp at h
  | error e0 =>
    cases e0 with
    | merr m =>
      dsimp only at h
      simp only [Prod.mk.injEq] at h
      obtain ⟨-, h2⟩ := h
      subst h2
      have hs := pymatch_merr_store hP ns nm
      refine ⟨hs, ?_⟩
      intro hu
      rcases hs with h | h
      · unfold getattrStore at hu ⊢
        rw [h]
        exact hu
      · unfold getattrStore
        rw [h]
        simp [isUnboundVal]
    | schemaErr => simp at h
    | bindErr => simp at h
    | keyErr => simp at h

/-- C3 witness: `case([o.x, 2])` against data `[1, 3]` binds `x := 1`, then
fails on `2 != 3` and returns `false`; afterwards `x` is unbound again. -/
theorem c3_case_failure_clears_attempt_bindings_witness :
    (caseFn (.vlist [.vint 1, .vint 3]) (.vlist [.unbound 0 "x", .vint 2])
      [] emptyStore).1 = .ok false ∧
    isUnboundVal (getattrStore
      (caseFn (.vlist [.vint 1, .vint 3]) (.vlist [.unbound 0 "x", .vint 2])
        [] emptyStore).2 0 "x") = true := by
  have h1 : (caseFn (.vlist [.vint 1, .vint 3]) (.vlist [.unbound 0 "x", .vint 2])
      [] emptyStore).1 = .ok false := by
    simp [caseFn, pymatch, mmatch, matchSequence, matchZip, pyEq, numVal?]
  have hp : caseFn (.vlist [.vint 1, .vint 3]) (.vlist [.unbound 0 "x", .vint 2])
      [] emptyStore =
      (.ok false, (caseFn (.vlist [.vint 1, .vint 3])
        (.vlist [.unbound 0 "x", .vint 2]) [] emptyStore).2) := by
    rw [← h1]
  exact ⟨h1, (c3_case_failure_clears_attempt_bindings _ _ _ _ _ hp 0 "x").2
    (by simp [getattrStore, emptyStore, isUnboundVal])⟩

/-- C5 counterexample: structured-object matching does NOT require
`type(data) == type(schema)`.  `"Child"` is a proper subclass of
`"Parent"`; an instance of `Child` successfully matches a schema that is an
instance of `Parent`, although the two concrete runtime types differ. -/
theorem c5_subclass_instance_matches_object_schema :
    (pymatch (.vobj "Parent" [("value", .vint 1)])
      (.vobj "Child" [("value", .vint 1)]) [] emptyStore).1 =
      .ok (.vobj "Child" [("value", .vint 1)]) ∧
    "Child" ≠ "Parent" ∧
    classAncestors "Child" = ["Child", "Parent"] := by
  refine ⟨?_, by decide, by simp [classAncestors]⟩
  simp [pymatch, mmatch, matchAttrs, pyEq, pyEqAttrsSub, numVal?,
    pyIsInstance, classAncestors, publicAttrs, sortAttrs, insertSorted,
    isPrivateName, getattrObj, lookupStr]

/-- C5 (amended): the type gate of `match_instance` is
`isinstance(data, type(schema))`, so instances of proper subclasses of the
schema's type pass it; only data that is not an instance of the schema's
class (in the `isinstance` sense) fails with the type-mismatch
`MatchError`, and any successful structured-object match implies
`isinstance`. -/
theorem c5_object_match_requires_only_isinstance :
    ∀ (cls : String) (sattrs : List (String × Val)) (d : Val)
      (st : SessionState),
      (pyIsInstance d (.user cls) = false →
        mmatch (.vobj cls sattrs) d st = (.error (.merr .typeMismatch), st)) ∧
      (∀ v st', mmatch (.vobj cls sattrs) d st = (.ok v, st') →
        pyIsInstance d (.user cls) = true) := by
  intro cls sattrs d st
  constructor
  · intro hno
    simp only [mmatch]
    rw [if_neg (by rw [hno]; simp)]
  · intro v st' h
    by_cases hi : pyIsInstance d (.user cls) = true
    · exact hi
    · simp only [mmatch] at h
      rw [if_neg hi] at h
      cases h

/-- C5 amended witness: data `7` (an `int`, not an instance of `"Parent"`)
fails the type gate against the `Parent(value=1)` schema, and the
successful `Child` match implies the `isinstance` fact. -/
theorem c5_object_match_requires_only_isinstance_witness :
    mmatch (.vobj "Parent" [("value", .vint 1)]) (.vint 7)
      ⟨[], none, emptyStore⟩ =
      (.error (.merr .typeMismatch), ⟨[], none, emptyStore⟩) ∧
    pyIsInstance (.vobj "Child" [("value", .vint 1)]) (.user "Parent") = true := by
  constructor
  · exact (c5_object_match_requires_only_isinstance "Parent" [("value", .vint 1)]
      (.vint 7) ⟨[], none, emptyStore⟩).1 (by simp [pyIsInstance])
  · have h : mmatch (.vobj "Parent" [("value", .vint 1)])
        (.vobj "Child" [("value", .vint 1)]) ⟨[], none, emptyStore⟩ =
        (.ok (.vobj "Child" [("value", .vint 1)]), ⟨[], none, emptyStore⟩) := by
      simp [mmatch, matchAttrs, pyEq, pyEqAttrsSub, numVal?,
        pyIsInstance, classAncestors, publicAttrs, sortAttrs, insertSorted,
        isPrivateName, getattrObj, lookupStr]
    exact (c5_object_match_requires_only_isinstance "Parent" [("value", .vint 1)]
      (.vobj "Child" [("value", .vint 1)]) ⟨[], none, emptyStore⟩).2 _ _ h

/-- C8 counterexample: a schema referencing placeholders of two distinct
`Binding` objects does NOT fail with `SchemaError` regardless of the data:
against the non-sequence data `5` the mismatch is detected before the
second placeholder is ever bound, and the call fails with a `MatchError`
("expected a sequence"), not a `SchemaError`. -/
theorem c8_two_binding_sets_can_fail_with_match_error :
    (pymatch (.vlist [.unbound 0 "x", .unbound 1 "y"]) (.vint 5) []
      emptyStore).1 = .error (.merr .expectedSequence) ∧
    (pymatch (.vlist [.unbound 0 "x", .unbound 1 "y"]) (.vint 5) []
      emptyStore).1 ≠ .error .schemaErr := by
  have h : (pymatch (.vlist [.unbound 0 "x", .unbound 1 "y"]) (.vint 5) []
      emptyStore).1 = .error (.merr .expectedSequence) := by
    simp [pymatch, mmatch]
  refine ⟨h, ?_⟩
  rw [h]
  simp

/-- C8 (amended): binding a placeholder whose `Binding` object differs from
the session's already-adopted one raises `SchemaError` (so a schema using
two binding sets fails with `SchemaError` whenever matching actually
reaches the second set's placeholder, e.g. `[a.x, b.y]` against `[1, 2]`);
and `Switch.case` converts only `MatchError` into the fail signal —
`SchemaError` propagates to the caller. -/
theorem c8_second_binding_set_schema_error :
    (∀ (ns : Nat) (nm : String) (v : Val) (st : SessionState) (b : Nat),
      st.binding = some b → b ≠ ns →
      bindPH ns nm v st = (.error .schemaErr, st)) ∧
    (pymatch (.vlist [.unbound 0 "x", .unbound 1 "y"])
      (.vlist [.vint 1, .vint 2]) [] emptyStore).1 = .error .schemaErr ∧
    (∀ (data schema : Val) (gs : List (Store → Bool)) (st0 st2 : Store),
      pymatch schema data gs st0 = (.error .schemaErr, st2) →
      caseFn data schema gs st0 = (.error .schemaErr, st2)) ∧
    (∀ (data schema : Val) (gs : List (Store → Bool)) (st0 : Store)
      (m : MErr) (st2 : Store),
      pymatch schema data gs st0 = (.error (.merr m), st2) →
      caseFn data schema gs st0 = (.ok false, st2)) := by
  refine ⟨?_, ?_, ?_, ?_⟩
  · intro ns nm v st b hb hne
    unfold bindPH
    rw [hb]
    dsimp only
    rw [if_neg hne]
  · simp [pymatch, mmatch, matchSequence, matchZip, bindPH, bindPHset,
      bindingSetattr, getattrStore, storeSet, emptyStore, isUnboundVal]
  · intro data schema gs st0 st2 h
    unfold caseFn
    rw [h]
  · intro data schema gs st0 m st2 h
    unfold caseFn
    rw [h]

/-- C8 amended witness: a session that has adopted `Binding` 0 raises
`SchemaError` when asked to bind into `Binding` 1, and `Switch.case` lets
that `SchemaError` propagate on the two-binding-set schema. -/
theorem c8_second_binding_set_schema_error_witness :
    bindPH 1 "y" (.vint 2) ⟨[(0, "x")], some 0, storeSet emptyStore 0 "x" (.vint 1)⟩ =
      (.error .schemaErr,
        ⟨[(0, "x")], some 0, storeSet emptyStore 0 "x" (.vint 1)⟩) ∧
    (caseFn (.vlist [.vint 1, .vint 2]) (.vlist [.unbound 0 "x", .unbound 1 "y"])
      [] emptyStore).1 = .error .schemaErr := by
  constructor
  · exact c8_second_binding_set_schema_error.1 1 "y" (.vint 2)
      ⟨[(0, "x")], some 0, storeSet emptyStore 0 "x" (.vint 1)⟩ 0 rfl
      (by decide)
  · have h1 : (pymatch (.vlist [.unbound 0 "x", .unbound 1 "y"])
        (.vlist [.vint 1, .vint 2]) [] emptyStore).1 = .error .schemaErr :=
      c8_second_binding_set_schema_error.2.1
    have hp : pymatch (.vlist [.unbound 0 "x", .unbound 1 "y"])
        (.vlist [.vint 1, .vint 2]) [] emptyStore =
        (.error .schemaErr,
          (pymatch (.vlist [.unbound 0 "x", .unbound 1 "y"])
            (.vlist [.vint 1, .vint 2]) [] emptyStore).2) := by
      rw [← h1]
    rw [c8_second_binding_set_schema_error.2.2.1 _ _ _ _ _ hp]

/-- C4 counterexample: the schema `{'a': 1, ...: ...}` (wildcard rest value)
matched against `{'a': 1}` — zero excess keys — SUCCEEDS and returns the
data, whereas the claim says it fails with a "no extra items found"
`MatchError`: the `value is ...` test short-circuits the extra-item count. -/
theorem c4_wildcard_rest_zero_excess_succeeds :
    (pymatch (.vdict [(.str "a", .vint 1), (.ell, .ellipsis)])
      (.vdict [(.str "a", .vint 1)]) [] emptyStore).1 =
      .ok (.vdict [(.str "a", .vint 1)]) := by
  simp [pymatch, mmatch, matchMapping, matchMapZip, pyEq, numVal?]

/-- C4 (amended): in `match_mapping_ellipsis` (schema has a rest entry with
value `w`, and the missing keys reduce to exactly the rest marker):
if the rest value is not the wildcard and there are zero excess keys, the
match fails with the "no extra items found" `MatchError`; if it is not the
wildcard and there are two or more excess keys, the match fails with the
"cannot match N extra items" `MatchError`; and if there is exactly one
excess key, the excess pair is re-matched against its own data value with
the rest value discarded — the continuation is the same whatever `w` is
(wildcard or not), so the rest value is never used as the schema for the
excess pair. -/
theorem c4_rest_entry_cases :
    ∀ (se de : List (Key × Val)) (st : SessionState) (w : Val),
      lookupKV .ell se = some w →
      (se.map Prod.fst).filter (fun k => !((de.map Prod.fst).contains k)) =
        [Key.ell] →
      ((isEll w = false →
        (de.filter (fun p =>
          !(((se.filter (fun q => !(decide (q.1 = Key.ell)))).map Prod.fst).contains p.1))).length = 0 →
        matchMapping true se (.vdict de) st = (.error (.merr .noExtraItems), st)) ∧
      (isEll w = false →
        2 ≤ (de.filter (fun p =>
          !(((se.filter (fun q => !(decide (q.1 = Key.ell)))).map Prod.fst).contains p.1))).length →
        matchMapping true se (.vdict de) st =
          (.error (.merr (.cannotMatchExtra
            (de.filter (fun p =>
              !(((se.filter (fun q => !(decide (q.1 = Key.ell)))).map Prod.fst).contains p.1))).length)), st)) ∧
      ((de.filter (fun p =>
          !(((se.filter (fun q => !(decide (q.1 = Key.ell)))).map Prod.fst).contains p.1))).length = 1 →
        matchMapping true se (.vdict de) st =
          matchMapping false
            ((se.filter (fun q => !(decide (q.1 = Key.ell)))) ++
              (de.filter (fun p =>
                !(((se.filter (fun q => !(decide (q.1 = Key.ell)))).map Prod.fst).contains p.1))))
            (.vdict de) st)) := by
  intro se de st w hl hm
  have key : matchMapping true se (.vdict de) st =
      (if isEll w = true ∨
          (de.filter (fun p =>
            !(((se.filter (fun q => !(decide (q.1 = Key.ell)))).map Prod.fst).contains p.1))).length = 1 then
        matchMapping false
          ((se.filter (fun q => !(decide (q.1 = Key.ell)))) ++
            (de.filter (fun p =>
              !(((se.filter (fun q => !(decide (q.1 = Key.ell)))).map Prod.fst).contains p.1))))
          (.vdict de) st
      else if (de.filter (fun p =>
          !(((se.filter (fun q => !(decide (q.1 = Key.ell)))).map Prod.fst).contains p.1))).length = 0 then
        (.error (.merr .noExtraItems), st)
      else
        (.error (.merr (.cannotMatchExtra
          (de.filter (fun p =>
            !(((se.filter (fun q => !(decide (q.1 = Key.ell)))).map Prod.fst).contains p.1))).length)), st)) := by
    rw [matchMapping.eq_def]
    dsimp only
    rw [dif_pos ⟨rfl, hm⟩]
    split
    · rename_i heq
      rw [hl] at heq
      cases heq
    · rename_i value heq
      rw [hl] at heq
      injection heq with hv
      subst hv
      rfl
  refine ⟨?_, ?_, ?_⟩
  · intro hw h0
    rw [key, if_neg (by rw [h0, hw]; simp), if_pos h0]
  · intro hw h2
    rw [key, if_neg ?_, if_neg (by omega)]
    rw [hw]
    rintro (hfalse | hlen)
    · exact absurd hfalse (by decide)
    · omega
  · intro h1
    rw [key, if_pos (Or.inr h1)]

/-- C4 amended witness: `{'a': 1, ...: int}` against `{'a': 1}` (zero
excess) fails with "no extra items found"; against
`{'a': 1, 'b': 2, 'c': 3}` (two excess) fails with "cannot match 2 extra
items"; `{...: str}` against `{'c': 3}` (one excess) reduces to matching
`3` against itself — the rest value `str` is discarded — and succeeds. -/
theorem c4_rest_entry_cases_witness :
    matchMapping true [(.str "a", .vint 1), (.ell, .vtype .int)]
      (.vdict [(.str "a", .vint 1)]) ⟨[], none, emptyStore⟩ =
      (.error (.merr .noExtraItems), ⟨[], none, emptyStore⟩) ∧
    matchMapping true [(.str "a", .vint 1), (.ell, .vtype .int)]
      (.vdict [(.str "a", .vint 1), (.str "b", .vint 2), (.str "c", .vint 3)])
      ⟨[], none, emptyStore⟩ =
      (.error (.merr (.cannotMatchExtra 2)), ⟨[], none, emptyStore⟩) ∧
    matchMapping true [(.ell, .vtype .str)] (.vdict [(.str "c", .vint 3)])
      ⟨[], none, emptyStore⟩ =
      matchMapping false [(.str "c", .vint 3)] (.vdict [(.str "c", .vint 3)])
        ⟨[], none, emptyStore⟩ := by
  refine ⟨?_, ?_, ?_⟩
  · have h := (c4_rest_entry_cases [(.str "a", .vint 1), (.ell, .vtype .int)]
      [(.str "a", .vint 1)] ⟨[], none, emptyStore⟩ (.vtype .int)
      (by simp) (by simp)).1 (by simp) (by simp)
    simpa using h
  · have h := (c4_rest_entry_cases [(.str "a", .vint 1), (.ell, .vtype .int)]
      [(.str "a", .vint 1), (.str "b", .vint 2), (.str "c", .vint 3)]
      ⟨[], none, emptyStore⟩ (.vtype .int)
      (by simp) (by simp)).2.1 (by simp) (by simp)
    simpa using h
  · have h := (c4_rest_entry_cases [(.ell, .vtype .str)]
      [(.str "c", .vint 3)] ⟨[], none, emptyStore⟩ (.vtype .str)
      (by simp) (by simp)).2.2 (by simp)
    simpa using h

/-- Justification for the `allow` flag of `matchMapping`: at the inner
`match_mapping` call made by `match_mapping_ellipsis` (the schema updated
with the excess data pairs), the missing-key set is empty, so the wildcard
branch cannot re-trigger and the `false` flag does not change behaviour —
the call is equivalent to the flagless source recursion. -/
theorem inner_mapping_flag_irrelevant :
    ∀ (se de : List (Key × Val)) (st : SessionState),
      (se.map Prod.fst).filter (fun k => !((de.map Prod.fst).contains k)) =
        [Key.ell] →
      matchMapping false
        ((se.filter (fun q => !(decide (q.1 = Key.ell)))) ++
          (de.filter (fun p =>
            !(((se.filter (fun q => !(decide (q.1 = Key.ell)))).map Prod.fst).contains p.1))))
        (.vdict de) st =
      matchMapping true
        ((se.filter (fun q => !(decide (q.1 = Key.ell)))) ++
          (de.filter (fun p =>
            !(((se.filter (fun q => !(decide (q.1 = Key.ell)))).map Prod.fst).contains p.1))))
        (.vdict de) st := by
  intro se de st hm
  have hmiss :
      (((se.filter (fun q => !(decide (q.1 = Key.ell)))) ++
        (de.filter (fun p =>
          !(((se.filter (fun q => !(decide (q.1 = Key.ell)))).map Prod.fst).contains p.1)))).map Prod.fst).filter
        (fun k => !((de.map Prod.fst).contains k)) = [] := by
    rw [List.filter_eq_nil_iff]
    intro k hk
    simp only [List.map_append, List.mem_append] at hk
    rcases hk with hk | hk
    · -- k is a non-rest schema key; it cannot be missing, else it would be
      -- a second element of the filter in hm besides the rest marker
      simp only [List.mem_map, List.mem_filter] at hk
      obtain ⟨q, ⟨hq1, hq2⟩, hq3⟩ := hk
      intro hcon
      have hkf : k ∈ (se.map Prod.fst).filter
          (fun x => !((de.map Prod.fst).contains x)) := by
        rw [List.mem_filter]
        exact ⟨List.mem_map.mpr ⟨q, hq1, hq3⟩, hcon⟩
      rw [hm] at hkf
      simp only [List.mem_singleton] at hkf
      subst hkf
      rw [hq3] at hq2
      simp at hq2
    · -- k is an excess data key, hence a data key
      simp only [List.mem_map, List.mem_filter] at hk
      obtain ⟨p, ⟨hp1, _⟩, hp3⟩ := hk
      intro hcon
      simp only [Bool.not_eq_true'] at hcon
      have hmem : k ∈ de.map Prod.fst := List.mem_map.mpr ⟨p, hp1, hp3⟩
      have h2 := List.elem_eq_true_of_mem hmem
      simp only [List.contains] at hcon
      rw [h2] at hcon
      cases hcon
  rw [matchMapping.eq_def]
  conv_rhs => rw [matchMapping.eq_def]
  dsimp only
  rw [dif_neg (by simp), dif_neg (fun hcon => by rw [hmiss] at hcon; cases hcon.2)]

theorem matchMapZip_keys :
    ∀ (se de : List (Key × Val)) (st : SessionState)
      (entries : List (Key × Val)) (st' : SessionState),
      matchMapZip se de st = (.ok entries, st') →
      entries.map Prod.fst = se.map Prod.fst := by
  intro se
  induction se with
  | nil =>
    intro de st entries st' h
    rw [matchMapZip.eq_def] at h
    dsimp only at h
    simp only [Prod.mk.injEq, Except.ok.injEq] at h
    rw [← h.1]
  | cons p rest ih =>
    intro de st entries st' h
    obtain ⟨k, nest⟩ := p
    rw [matchMapZip.eq_def] at h
    dsimp only at h
    split at h
    · cases h
    · split at h
      · split at h
        · rename_i st1 hrec
          simp only [Prod.mk.injEq, Except.ok.injEq] at h
          rw [← h.1]
          simp only [List.map_cons, List.cons.injEq]
          exact ⟨by trivial, ih _ _ _ _ (by assumption)⟩
        · cases h
      · cases h

/-- C6 counterexample: a successful mapping match does NOT return the
original data mapping.  The schema `{'a': [1]}` matches the data
`{'a': [1, 2]}` (every value "recursively matches" — the nested sequence
match silently truncates), but the result `{'a': [1]}` is a freshly built
mapping that differs from the data, under both structural equality and
Python `==`. -/
theorem c6_result_is_not_the_original_data :
    (pymatch (.vdict [(.str "a", .vlist [.vint 1])])
      (.vdict [(.str "a", .vlist [.vint 1, .vint 2])]) [] emptyStore).1 =
      .ok (.vdict [(.str "a", .vlist [.vint 1])]) ∧
    (Val.vdict [(.str "a", .vlist [.vint 1])]) ≠
      (Val.vdict [(.str "a", .vlist [.vint 1, .vint 2])]) ∧
    pyEq (.vdict [(.str "a", .vlist [.vint 1])])
      (.vdict [(.str "a", .vlist [.vint 1, .vint 2])]) = false := by
  refine ⟨?_, by simp, ?_⟩
  · simp [pymatch, mmatch, matchMapping, matchMapZip, matchSequence, matchZip,
      pyEq, numVal?]
  · simp [pyEq, pyEqDictSub, pyEqList, numVal?]

/-- C6 (amended): on success (for a mapping schema with no rest entry) the
matcher returns a mapping REBUILT by the dict comprehension
`{k: match(nest, data[k]) for k, nest in schema.items()}`: its keys are the
schema's keys in schema order, with each key mapped to the recursive match
result; it equals the original data only when every recursive result equals
the corresponding data value, as in the claim's example. -/
theorem c6_mapping_result_is_rebuilt :
    ∀ (se : List (Key × Val)) (d : Val) (st : SessionState) (r : Val)
      (st' : SessionState),
      Key.ell ∉ se.map Prod.fst →
      mmatch (.vdict se) d st = (.ok r, st') →
      ∃ entries, r = .vdict entries ∧
        entries.map Prod.fst = se.map Prod.fst := by
  intro se d st r st' hne h
  simp only [mmatch] at h
  rw [matchMapping.eq_def] at h
  cases d <;> simp only at h <;> try cases h
  case vdict de =>
  split at h
  · rename_i hA
    exfalso
    apply hne
    have : Key.ell ∈ (se.map Prod.fst).filter
        (fun k => !((de.map Prod.fst).contains k)) := by
      rw [hA.2]
      simp
    exact List.mem_of_mem_filter this
  · split at h
    · cases h
    · split at h
      · cases h
      · split at h
        · rename_i entries st2 hzip
          simp only [Prod.mk.injEq, Except.ok.injEq] at h
          exact ⟨entries, h.1.symm, matchMapZip_keys _ _ _ _ _ hzip⟩
        · cases h

/-- C6 amended witness: the claim's example
`match({'a': 1, 'b': int, 'c': ...}, {'a': 1, 'b': 2, 'c': 3})` returns a
mapping equal to the data, and the theorem yields its rebuilt key list
`['a', 'b', 'c']` — the schema's keys in schema order. -/
theorem c6_mapping_result_is_rebuilt_witness :
    (pymatch (.vdict [(.str "a", .vint 1), (.str "b", .vtype .int),
        (.str "c", .ellipsis)])
      (.vdict [(.str "a", .vint 1), (.str "b", .vint 2), (.str "c", .vint 3)])
      [] emptyStore).1 =
      .ok (.vdict [(.str "a", .vint 1), (.str "b", .vint 2),
        (.str "c", .vint 3)]) ∧
    (∃ entries, (Val.vdict [(.str "a", .vint 1), (.str "b", .vint 2),
        (.str "c", .vint 3)]) = .vdict entries ∧
      entries.map Prod.fst =
        [(.str "a", Val.vint 1), (.str "b", Val.vtype .int),
          (.str "c", Val.ellipsis)].map Prod.fst) := by
  constructor
  · simp [pymatch, mmatch, matchMapping, matchMapZip, pyEq, numVal?,
      pyIsInstance]
  · have hm : mmatch (.vdict [(.str "a", .vint 1), (.str "b", .vtype .int),
        (.str "c", .ellipsis)])
        (.vdict [(.str "a", .vint 1), (.str "b", .vint 2), (.str "c", .vint 3)])
        ⟨[], none, emptyStore⟩ =
        (.ok (.vdict [(.str "a", .vint 1), (.str "b", .vint 2),
          (.str "c", .vint 3)]), ⟨[], none, emptyStore⟩) := by
      simp [mmatch, matchMapping, matchMapZip, pyEq, numVal?, pyIsInstance]
    exact c6_mapping_result_is_rebuilt _ _ _ _ _ (by simp) hm

theorem containsEll_of_headIsEll {ss : List Val} (h : headIsEll ss = true) :
    containsEll ss = true := by
  cases ss with
  | nil => simp [headIsEll] at h
  | cons x rest =>
    simp [headIsEll] at h
    simp [containsEll, h]

theorem containsEll_of_lastIsEll {ss : List Val} (h : lastIsEll ss = true) :
    containsEll ss = true := by
  induction ss with
  | nil => simp [lastIsEll] at h
  | cons x rest ih =>
    cases rest with
    | nil =>
      simp [lastIsEll] at h
      simp [containsEll, h]
    | cons y rest' =>
      rw [lastIsEll, List.getLast?_cons_cons] at h
      have := ih (by rw [lastIsEll]; exact h)
      simp [containsEll] at this ⊢
      exact Or.inr this

/-- C7: the wildcard splitting rules of `match_sequence`, plus the claim's
examples.  When the wildcard is last, the trimmed schema is matched against
the data prefix of the trimmed schema's length and the remaining data
suffix is appended verbatim; when it is first, symmetrically with Python's
negative slice `1 - len(schema)`; when it is in the middle, the schema is
split at the wildcard's index and the two halves are matched against the
corresponding data slices.  `[1,2,...]`, `[...,3,4]` and `[1,...,4]` all
match `[1,2,3,4]` returning the data, and each fails with a reported
unexpected-values `MatchError` on too-short data. -/
theorem c7_sequence_wildcard_splitting :
    (∀ (ss ds : List Val) (st : SessionState), lastIsEll ss = true →
      matchSequence ss ds st =
        (match matchSequence ss.dropLast (ds.take (ss.length - 1)) st with
         | (.ok m, st') => (.ok (m ++ ds.drop (ss.length - 1)), st')
         | (.error e, st') => (.error e, st'))) ∧
    (∀ (ss ds : List Val) (st : SessionState),
      lastIsEll ss = false → headIsEll ss = true →
      matchSequence ss ds st =
        (match matchSequence ss.tail (ds.drop (ds.length - (ss.length - 1))) st with
         | (.ok m, st') =>
             (.ok (ds.take (ds.length - (ss.length - 1)) ++ m), st')
         | (.error e, st') => (.error e, st'))) ∧
    (∀ (ss ds : List Val) (st : SessionState),
      containsEll ss = true → lastIsEll ss = false → headIsEll ss = false →
      matchSequence ss ds st =
        (match matchSequence (ss.take (firstEllIdx ss))
            (ds.take (firstEllIdx ss)) st with
         | (.ok a, st') =>
           (match matchSequence (ss.drop (firstEllIdx ss))
               (ds.drop (firstEllIdx ss)) st' with
            | (.ok b, st'') => (.ok (a ++ b), st'')
            | (.error e, st'') => (.error e, st''))
         | (.error e, st') => (.error e, st'))) ∧
    (pymatch (.vlist [.vint 1, .vint 2, .ellipsis])
      (.vlist [.vint 1, .vint 2, .vint 3, .vint 4]) [] emptyStore).1 =
      .ok (.vlist [.vint 1, .vint 2, .vint 3, .vint 4]) ∧
    (pymatch (.vlist [.ellipsis, .vint 3, .vint 4])
      (.vlist [.vint 1, .vint 2, .vint 3, .vint 4]) [] emptyStore).1 =
      .ok (.vlist [.vint 1, .vint 2, .vint 3, .vint 4]) ∧
    (pymatch (.vlist [.vint 1, .ellipsis, .vint 4])
      (.vlist [.vint 1, .vint 2, .vint 3, .vint 4]) [] emptyStore).1 =
      .ok (.vlist [.vint 1, .vint 2, .vint 3, .vint 4]) ∧
    (pymatch (.vlist [.vint 1, .vint 2, .ellipsis]) (.vlist [.vint 1]) []
      emptyStore).1 = .error (.merr (.unexpectedValues [])) ∧
    (pymatch (.vlist [.ellipsis, .vint 3, .vint 4]) (.vlist [.vint 4]) []
      emptyStore).1 = .error (.merr (.unexpectedValues [])) ∧
    (pymatch (.vlist [.vint 1, .ellipsis, .vint 4]) (.vlist [.vint 1]) []
      emptyStore).1 = .error (.merr (.unexpectedValues [])) := by
  refine ⟨?_, ?_, ?_, ?_, ?_, ?_, ?_, ?_, ?_⟩
  · intro ss ds st h
    have hne := lastIsEll_ne_nil h
    have hc := containsEll_of_lastIsEll h
    rw [matchSequence.eq_def]
    rw [if_neg (by simp; exact fun _ => hne),
      dif_neg (by rw [hc]; simp), dif_pos h]
  · intro ss ds st h1 h2
    have hne := headIsEll_ne_nil h2
    have hc := containsEll_of_headIsEll h2
    rw [matchSequence.eq_def]
    rw [if_neg (by simp; exact fun _ => hne),
      dif_neg (by rw [hc]; simp), dif_neg (by rw [h1]; simp), dif_pos h2]
  · intro ss ds st hc h1 h2
    have hne : ss ≠ [] := by
      intro hx
      subst hx
      simp [containsEll] at hc
    rw [matchSequence.eq_def]
    rw [if_neg (by simp; exact fun _ => hne),
      dif_neg (by rw [hc]; simp), dif_neg (by rw [h1]; simp),
      dif_neg (by rw [h2]; simp)]
  · simp [pymatch, mmatch, matchSequence, matchZip, pyEq, numVal?]
  · simp [pymatch, mmatch, matchSequence, matchZip, pyEq, numVal?]
  · simp [pymatch, mmatch, matchSequence, matchZip, pyEq, numVal?]
  · simp [pymatch, mmatch, matchSequence, matchZip, pyEq, numVal?]
  · simp [pymatch, mmatch, matchSequence, matchZip, pyEq, numVal?]
  · simp [pymatch, mmatch, matchSequence, matchZip, pyEq, numVal?]

/-- C7 witness: the last-wildcard law applied to `[1, 2, ...]` against
`[1, 2, 3, 4]`: the trimmed schema `[1, 2]` is matched against the data
prefix `[1, 2]` and the suffix `[3, 4]` is appended verbatim. -/
theorem c7_sequence_wildcard_splitting_witness :
    matchSequence [.vint 1, .vint 2, .ellipsis]
      [.vint 1, .vint 2, .vint 3, .vint 4] ⟨[], none, emptyStore⟩ =
      (match matchSequence [.vint 1, .vint 2] [.vint 1, .vint 2]
          ⟨[], none, emptyStore⟩ with
       | (.ok m, st') => (.ok (m ++ [.vint 3, .vint 4]), st')
       | (.error e, st') => (.error e, st')) := by
  have h := c7_sequence_wildcard_splitting.1
    [.vint 1, .vint 2, .ellipsis] [.vint 1, .vint 2, .vint 3, .vint 4]
    ⟨[], none, emptyStore⟩ (by simp [lastIsEll, isEll])
  simpa using h

end Destructure
